import Mathlib

/-!
Verification of the maestro fleet-state aggregation and credential-reconciliation
subsystem against its natural-language specification.

Shallow embedding of the Go sources:
 - `pkg/container/info.go` (credential reader, detail probes, registry query),
 - `cmd/refresh-tokens.go` (freshness reconciler),
 - `cmd/add-domain.go` and the container-package `AddDomainToContainer`
   (domain whitelist propagator).

Go strings are modelled as `List Char`; Go's `int64` epoch-millisecond values as
`Int`; the opaque command-execution boundary (docker/tmux/git calls) as explicit
`Option`-valued probe outputs, `none` meaning the external command failed.
-/

namespace Maestro

/-- Go strings, modelled as lists of characters. -/
abbrev GoStr := List Char

/-- Model of Go `strings.HasPrefix(s, pre)`. -/
def goStartsWith (s pre : GoStr) : Bool := decide (pre <+: s)

/-- Model of Go `strings.TrimSpace` (drop leading and trailing whitespace). -/
def goTrimSpace (s : GoStr) : GoStr :=
  ((s.dropWhile Char.isWhitespace).reverse.dropWhile Char.isWhitespace).reverse

/-- The `claudeAiOauth` object inside the credential artifact: the subsystem
only reads its `expiresAt` field (epoch milliseconds, Go `int64`). -/
structure OauthData where
  expiresAt : Int
  deriving DecidableEq, Repr

/-- `Credentials` from `pkg/container`: the parsed credential artifact. -/
structure Credentials where
  claudeAiOauth : OauthData
  deriving DecidableEq, Repr

/-- `IsTokenExpired` from `pkg/container/info.go`:
`creds.ClaudeAiOauth.ExpiresAt < currentTimeMs` — a strict comparison.
The ambient `time.Now().UnixMilli()` is passed explicitly as `currentTimeMs`. -/
def IsTokenExpired (creds : Credentials) (currentTimeMs : Int) : Bool :=
  decide (creds.claudeAiOauth.expiresAt < currentTimeMs)

/-- `GetShortName` from `pkg/container/info.go`: strip the configured name
leading part when present (`containerName[len(prefix):]`), else return the
name unchanged. -/
def GetShortName (containerName pre : GoStr) : GoStr :=
  if goStartsWith containerName pre then containerName.drop pre.length
  else containerName

/-!  Domain whitelist propagator (`cmd/add-domain.go` / `AddDomainToContainer`).
The remote dnsmasq configuration file is modelled as a list of lines.  The
existing-rule check is `grep -q "ipset=/<domain>/" <conf>`; the grep pattern is
modelled as a literal substring match on some line, which is exact for domains
containing no regular-expression metacharacters. -/

/-- The pattern the existing-rule check greps for: `ipset=/<domain>/`. -/
def dnsmasqPat (domain : GoStr) : GoStr :=
  "ipset=/".data ++ domain ++ "/".data

/-- The first appended rule line: `ipset=/<domain>/allowed-domains`. -/
def ipsetRule (domain : GoStr) : GoStr :=
  "ipset=/".data ++ domain ++ "/allowed-domains".data

/-- The second appended rule line: `server=/<domain>/8.8.8.8`. -/
def serverRule (domain : GoStr) : GoStr :=
  "server=/".data ++ domain ++ "/8.8.8.8".data

/-- The existing-rule check: does any configuration line contain
`ipset=/<domain>/`? -/
def grepHasDomain (conf : List GoStr) (domain : GoStr) : Bool :=
  conf.any fun line => decide (dnsmasqPat domain <:+: line)

/-- Config mutation performed by `runAddDomain` / `AddDomainToContainer`:
if the rule is already present the configuration is left unchanged, otherwise
the two rule lines are appended.  (The dnsmasq restart and the best-effort
probe resolution touch no configuration state and are not modelled.) -/
def AddDomainToConfig (conf : List GoStr) (domain : GoStr) : List GoStr :=
  if grepHasDomain conf domain then conf
  else conf ++ [ipsetRule domain, serverRule domain]

/-!  Sandbox registry query (`GetRunningContainers` / `GetAllContainers` in
`pkg/container/info.go`).  Both functions parse the bulk `docker ps` output with
the same code: split on newlines, skip empty lines, split each line on tabs,
skip lines with fewer than four fields, skip names without the configured
leading part, and parse the creation timestamp in the fixed Go layout
`2006-01-02 15:04:05 -0700 MST`, keeping a zero-value timestamp when the parse
fails.  The shared parse is modelled once below. -/

/-- Result of Go `time.Parse` on the fixed layout: the parsed calendar fields
and the numeric zone offset in minutes. -/
structure GoTime where
  year : Nat
  month : Nat
  day : Nat
  hour : Nat
  minute : Nat
  second : Nat
  offsetMin : Int
  deriving DecidableEq, Repr

/-- The zero value `time.Time{}`: January 1, year 1, 00:00:00 UTC. -/
def goTimeZero : GoTime := ⟨1, 1, 1, 0, 0, 0, 0⟩

/-- Digit-string to number, `none` when empty or not all digits. -/
def digitsToNat (s : GoStr) : Option Nat :=
  if s ≠ [] ∧ s.all Char.isDigit then
    some (s.foldl (fun n c => n * 10 + (c.toNat - 48)) 0)
  else none

/-- Leap-year rule used by the Go time package for day-of-month validation. -/
def isLeapYear (y : Nat) : Bool := (y % 4 = 0 && y % 100 != 0) || y % 400 = 0

/-- Number of days in a month, as validated by `time.Parse`. -/
def daysInMonth (y m : Nat) : Nat :=
  if m = 2 then (if isLeapYear y then 29 else 28)
  else if m = 4 ∨ m = 6 ∨ m = 9 ∨ m = 11 then 30
  else 31

/-- Parse the `2006-01-02` date portion: four-digit year, two-digit month and
day, with range validation. -/
def parseDatePart (s : GoStr) : Option (Nat × Nat × Nat) :=
  match s.splitOn '-' with
  | [y, m, d] =>
    if y.length = 4 ∧ m.length = 2 ∧ d.length = 2 then
      match digitsToNat y, digitsToNat m, digitsToNat d with
      | some yn, some mn, some dn =>
        if 1 ≤ mn ∧ mn ≤ 12 ∧ 1 ≤ dn ∧ dn ≤ daysInMonth yn mn then
          some (yn, mn, dn)
        else none
      | _, _, _ => none
    else none
  | _ => none

/-- Parse the `15:04:05` clock portion with range validation. -/
def parseClockPart (s : GoStr) : Option (Nat × Nat × Nat) :=
  match s.splitOn ':' with
  | [h, mi, se] =>
    if h.length = 2 ∧ mi.length = 2 ∧ se.length = 2 then
      match digitsToNat h, digitsToNat mi, digitsToNat se with
      | some hn, some min, some sn =>
        if hn ≤ 23 ∧ min ≤ 59 ∧ sn ≤ 59 then some (hn, min, sn) else none
      | _, _, _ => none
    else none
  | _ => none

/-- Parse the `-0700` numeric zone portion: a sign and four digits, minutes
below sixty; offset returned in minutes east of UTC. -/
def parseZonePart (s : GoStr) : Option Int :=
  match s with
  | sign :: rest =>
    if (sign = '+' ∨ sign = '-') ∧ rest.length = 4 then
      match digitsToNat (rest.take 2), digitsToNat (rest.drop 2) with
      | some hh, some mm =>
        if mm ≤ 59 then
          some (if sign = '+' then (hh * 60 + mm : Int) else -(hh * 60 + mm : Int))
        else none
      | _, _ => none
    else none
  | [] => none

/-- The `MST` zone-abbreviation portion: a nonempty run of capital letters. -/
def zoneAbbrOk (s : GoStr) : Bool :=
  decide (s ≠ []) && s.all fun c => 'A' ≤ c && c ≤ 'Z'

/-- Model of Go `time.Parse("2006-01-02 15:04:05 -0700 MST", s)`:
the layout's literal single spaces separate exactly four tokens. -/
def goTimeParse (s : GoStr) : Option GoTime :=
  match s.splitOn ' ' with
  | [datePart, clockPart, zonePart, abbrPart] =>
    match parseDatePart datePart, parseClockPart clockPart, parseZonePart zonePart with
    | some (y, m, d), some (hh, mi, ss), some off =>
      if zoneAbbrOk abbrPart then some ⟨y, m, d, hh, mi, ss, off⟩ else none
    | _, _, _ => none
  | _ => none

/-- `createdAt` computation in both registry functions: a timestamp that fails
to parse is replaced by the zero value `time.Time{}`. -/
def parseCreatedAt (s : GoStr) : GoTime :=
  match goTimeParse s with
  | some t => t
  | none => goTimeZero

/-- The per-row record assembled by the first parsing loop of
`GetRunningContainers` / `GetAllContainers` (local type `basicInfo`). -/
structure BasicInfo where
  name : GoStr
  status : GoStr
  state : GoStr
  createdAt : GoTime
  deriving DecidableEq, Repr

/-- Process the tab-separated fields of one line: require at least four
fields, require the configured leading part on the name, and parse the
creation timestamp. -/
def parseParts (pre : GoStr) (parts : List GoStr) : Option BasicInfo :=
  match parts with
  | name :: status :: state :: created :: _ =>
    if goStartsWith name pre then
      some ⟨name, status, state, parseCreatedAt created⟩
    else none
  | _ => none

/-- Parse one line of the bulk listing: skip the empty line, then split on
tabs and process the fields. -/
def parseRegistryLine (pre line : GoStr) : Option BasicInfo :=
  if line = [] then none
  else parseParts pre (line.splitOn '\t')

/-- Parse all lines of the bulk listing (the first loop of both registry
functions). -/
def parseRegistry (pre : GoStr) (lines : List GoStr) : List BasicInfo :=
  lines.filterMap (parseRegistryLine pre)

/-- Go `strings.Split(output, "\n")`. -/
def registryLines (output : GoStr) : List GoStr := output.splitOn '\n'

/-- Registry query up to the detail-fetch stage: `none` models the
`EngineUnavailable` failure of the bulk `docker ps` call (the only error the
registry functions can return); any output parses to a (possibly empty) row
list. -/
def GetContainersBasic (pre : GoStr) (bulk : Option GoStr) : Option (List BasicInfo) :=
  bulk.map fun out => parseRegistry pre (registryLines out)

/-- One well-formed registry row before encoding into the tab-separated bulk
format. -/
structure RegRow where
  name : GoStr
  status : GoStr
  state : GoStr
  created : GoStr
  deriving DecidableEq, Repr

/-- Encode a row into one tab-separated bulk-listing line
(`{{.Names}}\t{{.Status}}\t{{.State}}\t{{.CreatedAt}}`). -/
def encRow (r : RegRow) : GoStr :=
  List.intercalate ['\t'] [r.name, r.status, r.state, r.created]

/-- Well-formedness of a registry row: no field contains a tab. -/
def tabFree (r : RegRow) : Prop :=
  '\t' ∉ r.name ∧ '\t' ∉ r.status ∧ '\t' ∉ r.state ∧ '\t' ∉ r.created

instance (r : RegRow) : Decidable (tabFree r) := by
  unfold tabFree; infer_instance

/-!  Freshness reconciler (`runRefreshTokens` in `cmd/refresh-tokens.go`).
The pass is modelled after a successful registry listing: the scan environment
records what each replica read returned, the propagate environment records
which target writes succeed.  Times are epoch milliseconds. -/

/-- `tokenSource` from `cmd/refresh-tokens.go`.  `creds` is the Go
`*container.Credentials` pointer (`none` = nil), `expiresAtMs` the
`time.UnixMilli(ExpiresAt)` value in epoch milliseconds. -/
structure TokenSource where
  location : GoStr
  creds : Option Credentials
  expiresAtMs : Int
  deriving DecidableEq, Repr

/-- The `"host"` location id. -/
def hostLoc : GoStr := "host".data

/-- Epoch milliseconds of the Go zero value `time.Time{}`
(January 1, year 1, 00:00:00 UTC). -/
def goZeroTimeMs : Int := -62135596800000

/-- The zero value `var freshest tokenSource`: empty location, nil creds,
zero-time expiry. -/
def zeroTokenSource : TokenSource := ⟨[], none, goZeroTimeMs⟩

/-- A token source built from a successfully read credential file. -/
def sourceOfCreds (loc : GoStr) (c : Credentials) : TokenSource :=
  ⟨loc, some c, c.claudeAiOauth.expiresAt⟩

/-- Scan-stage observation for one running sandbox: whether the `docker cp`
extraction succeeded, and what `ReadCredentials` returned on the extracted
temporary file (`none` = read or parse error). -/
structure SandboxScan where
  name : GoStr
  copyOk : Bool
  readCreds : Option Credentials
  deriving Repr

/-- Scan-stage environment: the host `ReadCredentials` result and the running
sandboxes in listing order (configured-prefix list then legacy list). -/
structure ScanEnv where
  hostCreds : Option Credentials
  sandboxes : List SandboxScan
  deriving Repr

/-- The Scan stage: the host replica first (when readable), then each
sandbox replica whose extraction and read both succeeded, in listing order.
Failed reads drop the replica and nothing else. -/
def scanSources (env : ScanEnv) : List TokenSource :=
  (match env.hostCreds with
   | some c => [sourceOfCreds hostLoc c]
   | none => []) ++
  env.sandboxes.filterMap fun sb =>
    if sb.copyOk then sb.readCreds.map (sourceOfCreds sb.name) else none

/-- One step of the Select loop:
`if src.expiresAt.After(freshest.expiresAt) { freshest = src }`. -/
def freshestStep (fr src : TokenSource) : TokenSource :=
  if fr.expiresAtMs < src.expiresAtMs then src else fr

/-- The Select stage: fold the strict-improvement step over the scanned
sources, starting from the zero-valued `tokenSource`. -/
def selectFreshest (sources : List TokenSource) : TokenSource :=
  sources.foldl freshestStep zeroTokenSource

/-- A propagation target: the host credential file or a sandbox. -/
inductive SyncTarget where
  | host : SyncTarget
  | sandbox (name : GoStr) : SyncTarget
  deriving DecidableEq, Repr

/-- Propagate-stage environment: which target writes succeed
(`copyCredentials` to the host, `docker cp` into a sandbox). -/
structure PropagateEnv where
  hostWriteOk : Bool
  sandboxWriteOk : GoStr → Bool

/-- Whether the write to a target succeeds in the given environment. -/
def writeOk (penv : PropagateEnv) : SyncTarget → Bool
  | .host => penv.hostWriteOk
  | .sandbox n => penv.sandboxWriteOk n

/-- The propagation targets: the host unless it is the source, then every
listed sandbox other than the source, in listing order.  (A chown failure
after a successful sandbox write is logged but still counted as synced.) -/
def syncTargets (freshestLoc : GoStr) (sandboxNames : List GoStr) : List SyncTarget :=
  (if freshestLoc ≠ hostLoc then [SyncTarget.host] else []) ++
  (sandboxNames.filter fun n => n != freshestLoc).map SyncTarget.sandbox

/-- Outcome of one reconciliation pass.  `completed synced attempted` models
`runRefreshTokens` returning nil after printing the `synced N/M` tally;
`nilDeref` models the run-time nil-pointer dereference that occurs when the
zero-valued `tokenSource` survives selection and its nil `creds` is passed to
`IsTokenExpired`. -/
inductive RefreshOutcome where
  | noCredentialsFound : RefreshOutcome
  | nilDeref : RefreshOutcome
  | allExpired : RefreshOutcome
  | completed (synced attempted : Nat) : RefreshOutcome
  deriving DecidableEq, Repr

/-- Whether the pass as a whole reports failure (returns a non-nil error). -/
def refreshFailed : RefreshOutcome → Bool
  | .completed _ _ => false
  | _ => true

/-- Result of one pass: the outcome and the propagation writes attempted. -/
structure RefreshResult where
  outcome : RefreshOutcome
  writes : List SyncTarget
  deriving DecidableEq, Repr

/-- `runRefreshTokens` after a successful registry listing:
Scan, then `NoCredentialsFound` on zero readable replicas, then Select, then
Validate (`AllCredentialsExpired` when the selected credential is expired),
then Propagate over every other replica location, tallying successes and
returning nil regardless of the tally. -/
def runRefreshTokens (env : ScanEnv) (nowMs : Int) (penv : PropagateEnv) : RefreshResult :=
  let sources := scanSources env
  if sources.length = 0 then ⟨.noCredentialsFound, []⟩
  else
    let freshest := selectFreshest sources
    match freshest.creds with
    | none => ⟨.nilDeref, []⟩
    | some c =>
      if IsTokenExpired c nowMs then ⟨.allExpired, []⟩
      else
        let targets := syncTargets freshest.location (env.sandboxes.map (·.name))
        ⟨.completed (targets.filter (writeOk penv)).length targets.length, targets⟩

/-!  Detail fetcher (probe functions and per-row assembly in
`pkg/container/info.go`).  Each probe's external command output is an
`Option GoStr` (`none` = the command failed / exited nonzero). -/

/-- `GetBranchName`: trimmed command output, or the `"unknown"` sentinel when
the probe fails. -/
def GetBranchName (out : Option GoStr) : GoStr :=
  match out with
  | none => "unknown".data
  | some o => goTrimSpace o

/-- One line of the `tmux list-windows` output: after trimming, exactly two
colon-separated fields of which one is `"1"`. -/
def bellLineFlags (line : GoStr) : Bool :=
  match (goTrimSpace line).splitOn ':' with
  | [bellFlag, silenceFlag] => bellFlag == "1".data || silenceFlag == "1".data
  | _ => false

/-- `CheckBellStatus`: `false` when the probe fails, otherwise whether any
window line carries a bell or silence flag. -/
def CheckBellStatus (out : Option GoStr) : Bool :=
  match out with
  | none => false
  | some o => (o.splitOn '\n').any bellLineFlags

/-- `IsClaudeRunning`: `false` when the probe fails, otherwise whether the
zombie-filtered process listing is nonempty after trimming. -/
def IsClaudeRunning (out : Option GoStr) : Bool :=
  match out with
  | none => false
  | some o => decide (goTrimSpace o ≠ [])

/-- Nearest integer to `num / den` for `den > 0`, ties to even: models the
rounding performed when Go formats a duration with `%.1f` / `%.0f`. -/
def roundHalfEvenDiv (num den : Int) : Int :=
  let q := Int.ediv num den
  let r := Int.emod num den
  if 2 * r < den then q
  else if den < 2 * r then q + 1
  else if q % 2 = 0 then q else q + 1

/-- Render a nonnegative tenths count as Go renders the value with `%.1f`
(for example `1471 ↦ "147.1"`). -/
def formatTenths (tenths : Int) : GoStr :=
  (toString (Int.ediv tenths 10)).data ++ '.' :: (toString (Int.emod tenths 10)).data

/-- A duration in milliseconds rendered as tenths of hours. -/
def hoursTenths (durMs : Int) : Int := roundHalfEvenDiv (10 * durMs) 3600000

/-- `GetAuthStatus`: the `"✗ NO AUTH"` sentinel when the credential extraction
fails, `"✗ INVALID"` when the extracted file does not parse, `"✗ EXPIRED"` for
an expired credential, and otherwise the remaining-hours rendering with a `⚠`
marker under 24h.  (The float `%.1f` hour rendering is modelled by exact
rational rounding of the millisecond duration.) -/
def GetAuthStatus (copyOk : Bool) (creds : Option Credentials) (nowMs : Int) : GoStr :=
  if !copyOk then "✗ NO AUTH".data
  else
    match creds with
    | none => "✗ INVALID".data
    | some c =>
      if IsTokenExpired c nowMs then "✗ EXPIRED".data
      else
        let durMs := c.claudeAiOauth.expiresAt - nowMs
        if durMs < 24 * 3600000 then
          "⚠ ".data ++ formatTenths (hoursTenths durMs) ++ "h".data
        else "✓ ".data ++ formatTenths (hoursTenths durMs) ++ "h".data

/-- Model of Go `strconv.ParseInt(s, 10, 64)`: optional sign, nonempty digit
run, 64-bit range check. -/
def goParseInt64 (s : GoStr) : Option Int :=
  match s with
  | '+' :: rest =>
    (digitsToNat rest).bind fun n =>
      if (n : Int) ≤ 2 ^ 63 - 1 then some (n : Int) else none
  | '-' :: rest =>
    (digitsToNat rest).bind fun n =>
      if (n : Int) ≤ 2 ^ 63 then some (-(n : Int)) else none
  | _ =>
    (digitsToNat s).bind fun n =>
      if (n : Int) ≤ 2 ^ 63 - 1 then some (n : Int) else none

/-- `formatDuration` on a whole-second duration: seconds under a minute,
minutes under an hour, tenths of hours under a day, tenths of days beyond. -/
def formatDurationSec (secs : Int) : GoStr :=
  if secs < 60 then (toString secs).data ++ "s".data
  else if secs < 3600 then (toString (roundHalfEvenDiv secs 60)).data ++ "m".data
  else if secs < 24 * 3600 then formatTenths (roundHalfEvenDiv (10 * secs) 3600) ++ "h".data
  else formatTenths (roundHalfEvenDiv (10 * secs) 86400) ++ "d".data

/-- `GetLastActivity`: the `"-"` sentinel when the probe fails or its output
does not parse as a Unix timestamp, otherwise the formatted time since that
timestamp. -/
def GetLastActivity (out : Option GoStr) (nowSec : Int) : GoStr :=
  match out with
  | none => "-".data
  | some o =>
    match goParseInt64 (goTrimSpace o) with
    | none => "-".data
    | some ts => formatDurationSec (nowSec - ts)

/-- Go `len()` of a string: its UTF-8 byte length. -/
def goLen (s : GoStr) : Nat := s.foldl (fun n c => n + c.utf8Size) 0

/-- `padGitStatus`: pad with spaces to a fixed width of 10 bytes. -/
def padGitStatus (status : GoStr) : GoStr :=
  if 10 ≤ goLen status then status
  else status ++ List.replicate (10 - goLen status) ' '

/-- `GetGitStatus`: the padded `"-"` sentinel when the repository check fails,
otherwise dirty/ahead/behind indicators joined with spaces (padded `"✓"` when
none fire); each sub-probe that fails simply contributes no indicator. -/
def GetGitStatus (repoOk : Bool) (dirtyOut aheadOut behindOut : Option GoStr) : GoStr :=
  if !repoOk then padGitStatus "-".data
  else
    let dirtyInd : List GoStr :=
      match dirtyOut with
      | some o =>
        let count := goTrimSpace o
        if count ≠ "0".data then ['Δ' :: count] else []
      | none => []
    let aheadInd : List GoStr :=
      match aheadOut with
      | some o =>
        let count := goTrimSpace o
        if count ≠ "0".data ∧ count ≠ [] then ['↑' :: count] else []
      | none => []
    let behindInd : List GoStr :=
      match behindOut with
      | some o =>
        let count := goTrimSpace o
        if count ≠ "0".data ∧ count ≠ [] then ['↓' :: count] else []
      | none => []
    let indicators := dirtyInd ++ aheadInd ++ behindInd
    if indicators = [] then padGitStatus "✓".data
    else padGitStatus (List.intercalate " ".data indicators)

/-- Observed outputs of the per-row probes launched by the detail fetcher. -/
structure ProbeEnv where
  branchOut : Option GoStr
  bellOut : Option GoStr
  claudeOut : Option GoStr
  authCopyOk : Bool
  authCreds : Option Credentials
  activityOut : Option GoStr
  gitRepoOk : Bool
  gitDirtyOut : Option GoStr
  gitAheadOut : Option GoStr
  gitBehindOut : Option GoStr

/-- The composite per-sandbox record (`Info` in `pkg/container`). -/
structure Info where
  name : GoStr
  shortName : GoStr
  status : GoStr
  statusDetails : GoStr
  createdAt : GoTime
  branch : GoStr
  isDormant : Bool
  needsAttention : Bool
  authStatus : GoStr
  lastActivity : GoStr
  gitStatus : GoStr
  deriving DecidableEq, Repr

/-- Row assembly for a running sandbox in `GetAllContainers`: every probe
writes its (possibly sentinel) value into the composite record; the record is
produced no matter which probes failed. -/
def fetchRunningRow (b : BasicInfo) (pre : GoStr) (e : ProbeEnv) (nowMs nowSec : Int) : Info :=
  { name := b.name
    shortName := GetShortName b.name pre
    status := b.state
    statusDetails := b.status
    createdAt := b.createdAt
    branch := GetBranchName e.branchOut
    isDormant := !IsClaudeRunning e.claudeOut
    needsAttention := CheckBellStatus e.bellOut
    authStatus := GetAuthStatus e.authCopyOk e.authCreds nowMs
    lastActivity := GetLastActivity e.activityOut nowSec
    gitStatus := GetGitStatus e.gitRepoOk e.gitDirtyOut e.gitAheadOut e.gitBehindOut }

/-- Row assembly for a non-running sandbox in `GetAllContainers`: only the
branch probe runs; the remaining fields keep their initial values
(`"-"` activity and git status, Go zero values elsewhere). -/
def stoppedRow (b : BasicInfo) (pre : GoStr) (e : ProbeEnv) : Info :=
  { name := b.name
    shortName := GetShortName b.name pre
    status := b.state
    statusDetails := b.status
    createdAt := b.createdAt
    branch := GetBranchName e.branchOut
    isDormant := false
    needsAttention := false
    authStatus := []
    lastActivity := "-".data
    gitStatus := "-".data }

/-- `GetAllContainers` end to end: `none` only when the bulk listing fails;
otherwise one composite record per parsed registry row, running rows carrying
all probe results. -/
def GetAllContainersModel (pre : GoStr) (bulk : Option GoStr) (probes : GoStr → ProbeEnv)
    (nowMs nowSec : Int) : Option (List Info) :=
  bulk.map fun out =>
    (parseRegistry pre (registryLines out)).map fun b =>
      if b.state = "running".data then fetchRunningRow b pre (probes b.name) nowMs nowSec
      else stoppedRow b pre (probes b.name)

/-!  Concrete inputs used by witnesses and counterexamples. -/

/-- Scenario C registry rows: `mcl-foo`, `other-bar`, `mcl-baz`. -/
def scenarioRows : List RegRow :=
  [⟨"mcl-foo".data, "Up 5 minutes".data, "running".data,
    "2025-10-01 12:00:00 +0000 UTC".data⟩,
   ⟨"other-bar".data, "Up 2 hours".data, "running".data,
    "2025-10-01 09:00:00 +0000 UTC".data⟩,
   ⟨"mcl-baz".data, "Exited (0) 3 days ago".data, "exited".data,
    "2025-09-28 08:30:00 +0000 UTC".data⟩]

/-- A registry row whose creation timestamp does not parse. -/
def badTimeRow : RegRow :=
  ⟨"mcl-a".data, "Up 2 hours".data, "running".data, "notatime".data⟩

/-- Scan environment: host readable and fresh, one sandbox readable but
staler. -/
def envFreshHost : ScanEnv :=
  ⟨some ⟨⟨1000⟩⟩, [⟨"mcl-a".data, true, some ⟨⟨0⟩⟩⟩]⟩

/-- Scan environment with no readable replica anywhere. -/
def envNothing : ScanEnv := ⟨none, []⟩

/-- Propagate environment in which every target write fails. -/
def penvAllFail : PropagateEnv := ⟨false, fun _ => false⟩

/-- Propagate environment in which every target write succeeds. -/
def penvAllOk : PropagateEnv := ⟨true, fun _ => true⟩

/-- Probe environment in which every probe fails. -/
def probesAllFail : ProbeEnv :=
  ⟨none, none, none, false, none, none, false, none, none, none⟩

/-- A concrete parsed registry row for witness rows. -/
def basicA : BasicInfo :=
  ⟨"mcl-a".data, "Up 2 hours".data, "running".data, goTimeZero⟩

/-- Replica lists with a tie at the maximal expiry, host scanned first. -/
def tieSources : List TokenSource :=
  [sourceOfCreds hostLoc ⟨⟨100⟩⟩,
   sourceOfCreds "mcl-a".data ⟨⟨200⟩⟩,
   sourceOfCreds "mcl-b".data ⟨⟨200⟩⟩]

/-- An encoded row is never the empty line. -/
theorem encRow_ne_nil (r : RegRow) : encRow r ≠ [] := by
  simp only [encRow, List.intercalate, List.intersperse, List.flatten]
  intro h
  rcases List.append_eq_nil.mp h with ⟨-, h2⟩
  rcases List.append_eq_nil.mp h2 with ⟨h3, -⟩
  exact List.cons_ne_nil _ _ h3

/-- Splitting an encoded well-formed row on tabs recovers its four fields. -/
theorem encRow_split (r : RegRow) (hwf : tabFree r) :
    (encRow r).splitOn '\t' = [r.name, r.status, r.state, r.created] := by
  obtain ⟨h1, h2, h3, h4⟩ := hwf
  rw [encRow]
  refine List.splitOn_intercalate _ '\t' ?_ (by simp)
  intro l hl
  simp only [List.mem_cons, List.not_mem_nil, or_false] at hl
  rcases hl with rfl | rfl | rfl | rfl <;> assumption

/-! ### Theorems for claims C1, C8, C9 -/

/-- C1 counterexample: the claim says a credential whose `expiresAt` equals
`now` is classified as expired (inclusive boundary).  The code compares with
strict `<`, so at `expiresAt = now = 5` the credential is classified as NOT
expired although `expiresAt ≤ now`. -/
theorem isTokenExpired_boundary_exclusive :
    IsTokenExpired ⟨⟨5⟩⟩ 5 = false ∧ (5 : Int) ≤ 5 := by decide

/-- C1 (amended): the expiry predicate is boundary-exclusive — for every
credential and every time `now`, `IsTokenExpired` classifies the credential as
expired exactly when `expiresAt < now`; a credential whose `expiresAt` equals
`now` is classified as still valid. -/
theorem isTokenExpired_iff_lt (creds : Credentials) (nowMs : Int) :
    IsTokenExpired creds nowMs = true ↔ creds.claudeAiOauth.expiresAt < nowMs := by
  simp [IsTokenExpired]

/-- C8: if `N` starts with `P` then `GetShortName N P` is `N` with exactly one
leading occurrence of `P` removed (`P ++ GetShortName N P = N`); otherwise
`GetShortName N P = N` unchanged.  `GetShortName` is a pure function of
`(N, P)` by construction. -/
theorem getShortName_spec (n p : GoStr) :
    (goStartsWith n p = true → p ++ GetShortName n p = n) ∧
    (goStartsWith n p = false → GetShortName n p = n) := by
  constructor
  · intro h
    obtain ⟨t, ht⟩ := of_decide_eq_true h
    subst ht
    simp [GetShortName, goStartsWith, List.prefix_append]
  · intro h
    simp [GetShortName, h]

/-- C8 witness: `GetShortName "mcl-foo" "mcl-"` strips exactly one leading
occurrence of the configured name part. -/
theorem getShortName_spec_witness :
    "mcl-".data ++ GetShortName "mcl-foo".data "mcl-".data = "mcl-foo".data :=
  (getShortName_spec "mcl-foo".data "mcl-".data).1 (by decide)

/-- The appended `ipset` rule line contains the grepped pattern, hence a
configuration that has just received the rule passes the existing-rule check. -/
theorem grepHasDomain_after_append (conf : List GoStr) (domain : GoStr) :
    grepHasDomain (conf ++ [ipsetRule domain, serverRule domain]) domain = true := by
  have hpre : dnsmasqPat domain <+: ipsetRule domain := by
    refine ⟨"allowed-domains".data, ?_⟩
    simp only [dnsmasqPat, ipsetRule, List.append_assoc, List.append_cancel_left_eq]
    decide
  have hin : dnsmasqPat domain <:+: ipsetRule domain := hpre.isInfix
  simp [grepHasDomain, List.any_append, hin]

/-- C9: the domain whitelist propagator is idempotent on the remote
configuration — a second invocation with the same `(sandbox, domain)` performs
no config mutation because the existing-rule check detects the rule appended by
the first invocation, and a first invocation on a configuration without the
rule appends it exactly once. -/
theorem addDomainToConfig_idempotent (conf : List GoStr) (domain : GoStr) :
    AddDomainToConfig (AddDomainToConfig conf domain) domain =
      AddDomainToConfig conf domain ∧
    (grepHasDomain conf domain = false →
      AddDomainToConfig conf domain = conf ++ [ipsetRule domain, serverRule domain]) ∧
    (grepHasDomain conf domain = true → AddDomainToConfig conf domain = conf) := by
  refine ⟨?_, fun h => by simp [AddDomainToConfig, h], fun h => by simp [AddDomainToConfig, h]⟩
  by_cases h : grepHasDomain conf domain = true
  · simp [AddDomainToConfig, h]
  · have h1 : AddDomainToConfig conf domain = conf ++ [ipsetRule domain, serverRule domain] := by
      simp [AddDomainToConfig, h]
    rw [h1]
    simp [AddDomainToConfig, grepHasDomain_after_append]

/-- C9 witness: adding `example.com` twice to an empty configuration mutates it
exactly once. -/
theorem addDomainToConfig_idempotent_witness :
    AddDomainToConfig (AddDomainToConfig [] "example.com".data) "example.com".data =
      AddDomainToConfig [] "example.com".data :=
  (addDomainToConfig_idempotent [] "example.com".data).1

/-! ### Theorems for the registry query claims C6, C7, C10 -/

/-- Fewer than four tab-separated fields produce no record. -/
theorem parseParts_none_of_short (pre : GoStr) (parts : List GoStr)
    (h : parts.length < 4) : parseParts pre parts = none := by
  match parts with
  | [] => rfl
  | [_] => rfl
  | [_, _] => rfl
  | [_, _, _] => rfl
  | _ :: _ :: _ :: _ :: _ =>
    simp only [List.length_cons] at h
    omega

/-- Parsing an encoded well-formed row reduces to the startsWith test on its
name field. -/
theorem parseRegistryLine_encRow (pre : GoStr) (r : RegRow) (hwf : tabFree r) :
    parseRegistryLine pre (encRow r) =
      if goStartsWith r.name pre then
        some ⟨r.name, r.status, r.state, parseCreatedAt r.created⟩
      else none := by
  simp only [parseRegistryLine, encRow_split r hwf, if_neg (encRow_ne_nil r)]
  rfl

/-- C6: for every name-part `P` and every list of well-formed registry rows,
the registry query keeps exactly the rows whose name starts with `P`, in
order, and parses each kept row's fields; rows not starting with `P` are
absent from the result and so receive no further processing. -/
theorem registryKeepsMatching (pre : GoStr) (rows : List RegRow)
    (hwf : ∀ r ∈ rows, tabFree r) :
    parseRegistry pre (rows.map encRow) =
      (rows.filter fun r => goStartsWith r.name pre).map
        fun r => ⟨r.name, r.status, r.state, parseCreatedAt r.created⟩ := by
  rw [parseRegistry, List.filterMap_map]
  induction rows with
  | nil => rfl
  | cons r t ih =>
    have hr : tabFree r := hwf r (List.mem_cons_self r t)
    have ht : ∀ x ∈ t, tabFree x := fun x hx => hwf x (List.mem_cons_of_mem r hx)
    simp only [List.filterMap_cons, Function.comp_apply,
      parseRegistryLine_encRow pre r hr, List.filter_cons]
    rcases hpre : goStartsWith r.name pre
    · simpa [hpre] using ih ht
    · simpa [hpre] using ih ht

/-- C6 witness (Scenario C): rows `mcl-foo`, `other-bar`, `mcl-baz` filtered by
`mcl-` yield exactly `mcl-foo` and `mcl-baz`, in order. -/
theorem registryKeepsMatching_witness :
    parseRegistry "mcl-".data (scenarioRows.map encRow) =
      (scenarioRows.filter fun r => goStartsWith r.name "mcl-".data).map
        (fun r => ⟨r.name, r.status, r.state, parseCreatedAt r.created⟩) ∧
    (parseRegistry "mcl-".data (scenarioRows.map encRow)).map BasicInfo.name =
      ["mcl-foo".data, "mcl-baz".data] := by
  refine ⟨registryKeepsMatching _ _ (by decide), ?_⟩
  rw [registryKeepsMatching _ _ (by decide)]
  decide

/-- C7: a well-formed registry row whose name carries the configured leading
part but whose creation timestamp fails to parse is kept in the result with
the zero-value timestamp; the row is not dropped and no error is raised. -/
theorem registryKeepsBadTimestamp (pre : GoStr) (r : RegRow) (hwf : tabFree r)
    (hpre : goStartsWith r.name pre = true) (hbad : goTimeParse r.created = none) :
    parseRegistryLine pre (encRow r) =
      some ⟨r.name, r.status, r.state, goTimeZero⟩ := by
  rw [parseRegistryLine_encRow pre r hwf, if_pos hpre]
  simp [parseCreatedAt, hbad]

/-- C7 witness: the row named `mcl-a` with creation timestamp `notatime` is
kept with the zero-value timestamp. -/
theorem registryKeepsBadTimestamp_witness :
    parseRegistryLine "mcl-".data (encRow badTimeRow) =
      some ⟨"mcl-a".data, "Up 2 hours".data, "running".data, goTimeZero⟩ :=
  registryKeepsBadTimestamp "mcl-".data badTimeRow (by decide) (by decide) (by decide)

/-- C10: an empty line, or a line with fewer than four tab-separated fields,
produces no record — it can be removed from any listing without changing the
result — and the registry query raises no error for any bulk output. -/
theorem registryDiscardsMalformed (pre l : GoStr) (lines1 lines2 : List GoStr)
    (h : l = [] ∨ (l.splitOn '\t').length < 4) :
    parseRegistryLine pre l = none ∧
    parseRegistry pre (lines1 ++ l :: lines2) = parseRegistry pre (lines1 ++ lines2) ∧
    ∀ bulk, (GetContainersBasic pre (some bulk)).isSome = true := by
  have hnone : parseRegistryLine pre l = none := by
    rcases h with rfl | hlen
    · rfl
    · by_cases hn : l = []
      · subst hn; rfl
      · simp only [parseRegistryLine, if_neg hn]
        exact parseParts_none_of_short pre _ hlen
  exact ⟨hnone, by simp [parseRegistry, hnone], fun bulk => rfl⟩

/-- C10 witness: the two-field line `a<tab>b` vanishes silently from a listing
that also carries a well-formed row. -/
theorem registryDiscardsMalformed_witness :
    parseRegistryLine "mcl-".data "a\tb".data = none ∧
    parseRegistry "mcl-".data ([] ++ "a\tb".data :: ["mcl-x\tUp\trunning\tt".data]) =
      parseRegistry "mcl-".data ([] ++ ["mcl-x\tUp\trunning\tt".data]) ∧
    ∀ bulk, (GetContainersBasic "mcl-".data (some bulk)).isSome = true :=
  registryDiscardsMalformed "mcl-".data "a\tb".data [] ["mcl-x\tUp\trunning\tt".data]
    (by decide)

/-! ### Theorems for the reconciler claims C2, C3, C4 -/

/-- Behaviour of the Select fold from any accumulator: either no element beats
the accumulator and it survives, or the result is the first element of the
list attaining the (strictly improved) maximal expiry. -/
theorem foldl_freshest_spec (l : List TokenSource) (acc : TokenSource) :
    (l.foldl freshestStep acc = acc ∧ ∀ s ∈ l, s.expiresAtMs ≤ acc.expiresAtMs) ∨
    (l.foldl freshestStep acc ∈ l ∧
     acc.expiresAtMs < (l.foldl freshestStep acc).expiresAtMs ∧
     (∀ s ∈ l, s.expiresAtMs ≤ (l.foldl freshestStep acc).expiresAtMs) ∧
     l.find? (fun s => decide ((l.foldl freshestStep acc).expiresAtMs ≤ s.expiresAtMs)) =
       some (l.foldl freshestStep acc)) := by
  induction l generalizing acc with
  | nil => exact Or.inl ⟨rfl, by simp⟩
  | cons s t ih =>
    rw [List.foldl_cons]
    by_cases hs : acc.expiresAtMs < s.expiresAtMs
    · rw [show freshestStep acc s = s from if_pos hs]
      rcases ih s with ⟨heq, hb⟩ | ⟨hmem, hlt, hb, hfind⟩
      · right
        rw [heq]
        refine ⟨List.mem_cons_self s t, hs, ?_, ?_⟩
        · intro x hx
          rcases List.mem_cons.mp hx with rfl | hx
          · exact le_refl _
          · exact hb x hx
        · exact List.find?_cons_of_pos _ (by simp)
      · right
        refine ⟨List.mem_cons_of_mem s hmem, lt_trans hs hlt, ?_, ?_⟩
        · intro x hx
          rcases List.mem_cons.mp hx with rfl | hx
          · exact le_of_lt hlt
          · exact hb x hx
        · rw [List.find?_cons_of_neg _ (by simp [not_le.mpr hlt]), hfind]
    · rw [show freshestStep acc s = acc from if_neg hs]
      rw [not_lt] at hs
      rcases ih acc with ⟨heq, hb⟩ | ⟨hmem, hlt, hb, hfind⟩
      · refine Or.inl ⟨heq, ?_⟩
        intro x hx
        rcases List.mem_cons.mp hx with rfl | hx
        · exact hs
        · exact hb x hx
      · right
        refine ⟨List.mem_cons_of_mem s hmem, hlt, ?_, ?_⟩
        · intro x hx
          rcases List.mem_cons.mp hx with rfl | hx
          · exact le_of_lt (lt_of_le_of_lt hs hlt)
          · exact hb x hx
        · rw [List.find?_cons_of_neg _ (by simp [not_le.mpr (lt_of_le_of_lt hs hlt)]), hfind]

/-- C3 counterexample: a single read replica whose expiry equals the Go zero
time is not returned by Select — the zero-valued sentinel survives the fold
and is not one of the read replicas. -/
theorem selectFreshest_sentinel_counterexample :
    selectFreshest [sourceOfCreds hostLoc ⟨⟨goZeroTimeMs⟩⟩] = zeroTokenSource ∧
    zeroTokenSource ∉ [sourceOfCreds hostLoc ⟨⟨goZeroTimeMs⟩⟩] := by decide

/-- C3 (amended): whenever at least one read replica's expiry is after the Go
zero time — in particular whenever some replica is non-expired at any
nonnegative epoch time — Select returns a replica of maximal expiry, and on
ties the first such replica in scan order (host before sandboxes, sandboxes in
listing order); with every expiry at or before the Go zero time the fold
instead returns the zero-valued sentinel. -/
theorem selectFreshest_max (sources : List TokenSource)
    (h : ∃ s ∈ sources, goZeroTimeMs < s.expiresAtMs) :
    selectFreshest sources ∈ sources ∧
    (∀ s ∈ sources, s.expiresAtMs ≤ (selectFreshest sources).expiresAtMs) ∧
    sources.find?
        (fun s => decide ((selectFreshest sources).expiresAtMs ≤ s.expiresAtMs)) =
      some (selectFreshest sources) := by
  obtain ⟨s0, hs0, hgt⟩ := h
  unfold selectFreshest
  rcases foldl_freshest_spec sources zeroTokenSource with ⟨-, hb⟩ | ⟨hmem, -, hb, hfind⟩
  · exact absurd (hb s0 hs0) (not_le.mpr hgt)
  · exact ⟨hmem, hb, hfind⟩

/-- C3 witness: with expiries 100, 200, 200 in scan order, Select returns a
maximal-expiry replica and the tie resolves to the first-encountered one. -/
theorem selectFreshest_max_witness :
    selectFreshest tieSources ∈ tieSources ∧
    (∀ s ∈ tieSources, s.expiresAtMs ≤ (selectFreshest tieSources).expiresAtMs) ∧
    tieSources.find?
        (fun s => decide ((selectFreshest tieSources).expiresAtMs ≤ s.expiresAtMs)) =
      some (selectFreshest tieSources) :=
  selectFreshest_max tieSources (by decide)

/-- C4: the reconciler performs no propagation write unless some replica was
readable and the selected credential is non-expired — zero readable replicas
end the pass with `NoCredentialsFound` and no writes, an expired selected
credential ends it with `AllCredentialsExpired` and no writes, and any
attempted write implies a readable, non-expired selection. -/
theorem refreshGuardsWrites (env : ScanEnv) (nowMs : Int) (penv : PropagateEnv) :
    (scanSources env = [] →
      runRefreshTokens env nowMs penv = ⟨.noCredentialsFound, []⟩) ∧
    (∀ c, (selectFreshest (scanSources env)).creds = some c →
      IsTokenExpired c nowMs = true →
      runRefreshTokens env nowMs penv = ⟨.allExpired, []⟩) ∧
    ((runRefreshTokens env nowMs penv).writes ≠ [] →
      scanSources env ≠ [] ∧
      ∃ c, (selectFreshest (scanSources env)).creds = some c ∧
        IsTokenExpired c nowMs = false) := by
  refine ⟨?_, ?_, ?_⟩
  · intro h
    simp [runRefreshTokens, h]
  · intro c hc hexp
    by_cases hS : (scanSources env).length = 0
    · rw [List.length_eq_zero.mp hS] at hc
      simp [selectFreshest, zeroTokenSource] at hc
    · simp [runRefreshTokens, hS, hc, hexp]
  · intro hw
    by_cases hS : (scanSources env).length = 0
    · exact absurd (by simp [runRefreshTokens, hS]) hw
    · refine ⟨fun h => hS (by simp [h]), ?_⟩
      rcases hcreds : (selectFreshest (scanSources env)).creds with _ | c
      · exact absurd (by simp [runRefreshTokens, hS, hcreds]) hw
      · by_cases hexp : IsTokenExpired c nowMs = true
        · exact absurd (by simp [runRefreshTokens, hS, hcreds, hexp]) hw
        · exact ⟨c, hcreds ▸ rfl, by simpa using hexp⟩

/-- C4 witness: with no readable replica anywhere the pass ends with
`NoCredentialsFound` and performs no write. -/
theorem refreshGuardsWrites_witness :
    runRefreshTokens envNothing 0 penvAllOk =
      ⟨RefreshOutcome.noCredentialsFound, []⟩ :=
  (refreshGuardsWrites envNothing 0 penvAllOk).1 rfl

/-- C2 counterexample: a pass in which the single attempted target write fails
(`synced 0/1`) still reports overall success — the claim that zero successful
writes escalate to overall failure is false on the code, which returns nil
after any Propagate stage. -/
theorem refreshNoFailOnZeroSync :
    runRefreshTokens envFreshHost 0 penvAllFail =
      ⟨.completed 0 1, [SyncTarget.sandbox "mcl-a".data]⟩ ∧
    refreshFailed (runRefreshTokens envFreshHost 0 penvAllFail).outcome = false := by
  decide

/-- C2 (amended): per-target propagation failures are only tallied
(`synced N/M`): once the pass reaches the Propagate stage it reports overall
success for every value of N, including N = 0. -/
theorem refreshTallyOnly (env : ScanEnv) (nowMs : Int) (penv : PropagateEnv)
    (c : Credentials) (hne : scanSources env ≠ [])
    (hc : (selectFreshest (scanSources env)).creds = some c)
    (hval : IsTokenExpired c nowMs = false) :
    runRefreshTokens env nowMs penv =
      ⟨.completed
          ((syncTargets (selectFreshest (scanSources env)).location
              (env.sandboxes.map (·.name))).filter (writeOk penv)).length
          (syncTargets (selectFreshest (scanSources env)).location
              (env.sandboxes.map (·.name))).length,
        syncTargets (selectFreshest (scanSources env)).location
          (env.sandboxes.map (·.name))⟩ ∧
    refreshFailed (runRefreshTokens env nowMs penv).outcome = false := by
  have hS : ¬(scanSources env).length = 0 := by
    simpa [List.length_eq_zero] using hne
  constructor
  · simp [runRefreshTokens, hS, hc, hval]
  · simp [runRefreshTokens, hS, hc, hval, refreshFailed]

/-- C2 witness: the concrete `synced 0/1` pass reaches Propagate and reports
success. -/
theorem refreshTallyOnly_witness :
    refreshFailed (runRefreshTokens envFreshHost 0 penvAllFail).outcome = false :=
  (refreshTallyOnly envFreshHost 0 penvAllFail ⟨⟨1000⟩⟩ (by decide) (by decide)
    (by decide)).2

/-! ### Theorems for the detail fetcher claim C5 -/

/-- C5 counterexample: the git probe's failure sentinel is `"-"` padded with
nine spaces to a fixed 10-byte width, not the bare string `"-"` the claim
names. -/
theorem gitSentinelPadded :
    GetGitStatus false none none none = '-' :: List.replicate 9 ' ' ∧
    GetGitStatus false none none none ≠ "-".data := by decide

/-- C5 (amended): every probe degrades independently on failure to its
sentinel — unknown branch, needsAttention = false, dormant = true, the
`✗ NO AUTH` marker, `"-"` activity, and `"-"` padded to 10 bytes for git
status — and no probe failure removes a row from the result or fails the
fetch: the fetch returns one composite record per parsed registry row and
fails only when the bulk listing fails. -/
theorem detailProbesDegrade (pre : GoStr) (b : BasicInfo) (e : ProbeEnv)
    (nowMs nowSec : Int) :
    (e.branchOut = none →
      (fetchRunningRow b pre e nowMs nowSec).branch = "unknown".data) ∧
    (e.bellOut = none →
      (fetchRunningRow b pre e nowMs nowSec).needsAttention = false) ∧
    (e.claudeOut = none →
      (fetchRunningRow b pre e nowMs nowSec).isDormant = true) ∧
    (e.authCopyOk = false →
      (fetchRunningRow b pre e nowMs nowSec).authStatus = "✗ NO AUTH".data) ∧
    (e.activityOut = none →
      (fetchRunningRow b pre e nowMs nowSec).lastActivity = "-".data) ∧
    (e.gitRepoOk = false →
      (fetchRunningRow b pre e nowMs nowSec).gitStatus = padGitStatus "-".data) ∧
    (∀ bulk probes,
      (GetAllContainersModel pre (some bulk) probes nowMs nowSec).isSome = true) ∧
    (∀ bulk probes,
      ((GetAllContainersModel pre (some bulk) probes nowMs nowSec).getD []).length =
        (parseRegistry pre (registryLines bulk)).length) := by
  refine ⟨fun h => ?_, fun h => ?_, fun h => ?_, fun h => ?_, fun h => ?_,
    fun h => ?_, fun bulk probes => ?_, fun bulk probes => ?_⟩
  · simp [fetchRunningRow, GetBranchName, h]
  · simp [fetchRunningRow, CheckBellStatus, h]
  · simp [fetchRunningRow, IsClaudeRunning, h]
  · simp [fetchRunningRow, GetAuthStatus, h]
  · simp [fetchRunningRow, GetLastActivity, h]
  · simp [fetchRunningRow, GetGitStatus, h]
  · simp [GetAllContainersModel]
  · simp [GetAllContainersModel]

/-- C5 witness: a row whose probes all fail keeps every documented sentinel. -/
theorem detailProbesDegrade_witness :
    (fetchRunningRow basicA "mcl-".data probesAllFail 0 0).branch = "unknown".data ∧
    (fetchRunningRow basicA "mcl-".data probesAllFail 0 0).needsAttention = false ∧
    (fetchRunningRow basicA "mcl-".data probesAllFail 0 0).isDormant = true ∧
    (fetchRunningRow basicA "mcl-".data probesAllFail 0 0).authStatus = "✗ NO AUTH".data ∧
    (fetchRunningRow basicA "mcl-".data probesAllFail 0 0).lastActivity = "-".data ∧
    (fetchRunningRow basicA "mcl-".data probesAllFail 0 0).gitStatus = padGitStatus "-".data := by
  have h := detailProbesDegrade "mcl-".data basicA probesAllFail 0 0
  exact ⟨h.1 rfl, h.2.1 rfl, h.2.2.1 rfl, h.2.2.2.1 rfl, h.2.2.2.2.1 rfl,
    h.2.2.2.2.2.1 rfl⟩

end Maestro
